import Mathlib

/-!
Shallow embedding of the curation orchestration flow of `fw_heudiconv`
(`fw_heudiconv/cli/curate.py`), centred on `convert_to_bids` and `main`.

The orchestrator's collaborators (the remote client, the query layer, the
heuristic loader and the apply layer) are external to the orchestrator and
are modelled as parameters: functions that either return a value or raise
an exception (`Except`).  The orchestrator itself is embedded faithfully,
statement by statement, as a function that returns the trace of collaborator
calls it issued together with its final outcome (normal return or the
propagated exception).

Type parameters: `C` is the type of the client handle, `K` the type of the
heuristic's destination keys, `S` the type of SeqInfo records, `R` the type
of IntendedFor reference entries.
-/

namespace FwHeudiconv

/-- Exceptions visible in this flow.  `notFoundError` models the remote
client's `NotFoundError` on a failed project lookup, `loadError` the
heuristic loader's failure, and `exception` any other Python exception. -/
inductive PyError where
  | notFoundError
  | loadError
  | exception (code : Nat)
deriving DecidableEq, Repr

/-- A project as seen by the orchestrator: a human-readable label and a
remote identifier (`project_obj['label']`, `project_obj.id`). -/
structure Project where
  label : String
  id : String
deriving DecidableEq, Repr

/-- A session: `s.subject['label']`, `s.label`, `s.id`. -/
structure Session where
  subject_label : String
  label : String
  id : String
deriving DecidableEq, Repr

/-- A loaded heuristic module: the classification entry point
`infotodict` (a Python dict is modelled as an association list in insertion
order), and the optional `IntendedFor` attribute (`hasattr` is modelled by
`Option`). -/
structure Heuristic (K S R : Type) where
  infotodict : List S → List (K × List S)
  IntendedFor : Option (List (K × List R))

/-- The collaborator operations `convert_to_bids` calls, in the shape it
calls them: `client.projects.find_first(query)`,
`client.get_project_sessions(id)`, `get_seq_info(client, label, sessions)`,
`utils.load_heuristic(path)`, and
`apply_heuristic(client, key, val, dry_run, intentions)`.  Each may raise. -/
structure Collab (C K S R : Type) where
  find_first : C → String → Except PyError Project
  get_project_sessions : C → String → Except PyError (List Session)
  get_seq_info : C → String → List Session → Except PyError (List S)
  load_heuristic : String → Except PyError (Heuristic K S R)
  apply_heuristic : C → K → List S → Bool → List R → Except PyError Unit

/-- One apply-layer invocation with the exact arguments passed:
`apply_heuristic(client, key, val, dry_run, intention_map[key])`. -/
structure ApplyCall (C K S R : Type) where
  client : C
  key : K
  val : List S
  dry_run : Bool
  intentions : List R
deriving DecidableEq, Repr

/-- The observable trace of collaborator calls issued by one run. -/
inductive Event (C K S R : Type) where
  | find_first_call (query : String)
  | sessions_query (project_id : String)
  | seq_info_query (project_label : String) (sessions : List Session)
  | load_heuristic_call (path : String)
  | infotodict_call (seq_infos : List S)
  | apply_call (c : ApplyCall C K S R)
deriving DecidableEq, Repr

/-- The project query string: the word label, an equals sign, and the
project label in double quotes, as built by the format call in
convert_to_bids. -/
def fmt_label_query (project_label : String) : String :=
  "label=\"" ++ project_label ++ "\""

/-- Python truthiness of an optional list argument (`if subject_labels:`):
`None` and the empty list are falsy. -/
def truthy_labels : Option (List String) → Bool
  | none => false
  | some l => !l.isEmpty

/-- The subject filter: when the optional subject-label argument is truthy,
keep the sessions whose subject label is a member of it. -/
def filter_subjects (subject_labels : Option (List String))
    (sessions : List Session) : List Session :=
  if truthy_labels subject_labels then
    sessions.filter (fun s => decide (s.subject_label ∈ subject_labels.getD []))
  else sessions

/-- The session-label filter: when the optional session-label argument is
truthy, keep the sessions whose label is a member of it. -/
def filter_sessions (session_labels : Option (List String))
    (sessions : List Session) : List Session :=
  if truthy_labels session_labels then
    sessions.filter (fun s => decide (s.label ∈ session_labels.getD []))
  else sessions

/-- The two label filters as applied by `convert_to_bids`: subject filter
first, then session filter. -/
def apply_filters (subject_labels session_labels : Option (List String))
    (sessions : List Session) : List Session :=
  filter_sessions session_labels (filter_subjects subject_labels sessions)

/-- First-match association-list lookup (Python dict lookup; the source dict
has unique keys, so first match and last match coincide). -/
def dict_lookup {K A : Type} [DecidableEq K] (m : List (K × A)) (k : K) :
    Option A :=
  (m.find? (fun p => decide (p.1 = k))).map Prod.snd

/-- Lookup in the intention map, which is a list-defaulting dict updated
with the entries of the IntendedFor attribute when the attribute exists:
the heuristic entry for the key when present, the empty list otherwise
(also when the heuristic has no IntendedFor attribute at all). -/
def intention_map_lookup {K R : Type} [DecidableEq K]
    (IntendedFor : Option (List (K × List R))) (k : K) : List R :=
  match IntendedFor with
  | none => []
  | some m => (dict_lookup m k).getD []

/-- The loop `for key, val in to_rename.items(): apply_heuristic(client, key,
val, dry_run, intention_map[key])`.  Returns the apply-call events issued
(a raising call is still issued, hence still recorded) and the outcome:
the first exception stops the loop and propagates. -/
def mk_apply_call {C K S R : Type} [DecidableEq K] (client : C)
    (dry_run : Bool) (IntendedFor : Option (List (K × List R)))
    (p : K × List S) : ApplyCall C K S R :=
  { client := client, key := p.1, val := p.2, dry_run := dry_run,
    intentions := intention_map_lookup IntendedFor p.1 }

def run_applies {C K S R : Type} [DecidableEq K]
    (apply_heuristic : C → K → List S → Bool → List R → Except PyError Unit)
    (client : C) (dry_run : Bool)
    (IntendedFor : Option (List (K × List R))) :
    List (K × List S) → List (Event C K S R) × Except PyError Unit
  | [] => ([], Except.ok ())
  | (key, val) :: rest =>
    match apply_heuristic client key val dry_run
        (intention_map_lookup IntendedFor key) with
    | Except.error e =>
      ([Event.apply_call (mk_apply_call client dry_run IntendedFor (key, val))],
       Except.error e)
    | Except.ok _ =>
      (Event.apply_call (mk_apply_call client dry_run IntendedFor (key, val)) ::
        (run_applies apply_heuristic client dry_run IntendedFor rest).1,
       (run_applies apply_heuristic client dry_run IntendedFor rest).2)

/-- `convert_to_bids(client, project_label, heuristic_path, subject_labels,
session_labels, dry_run)`: resolve the project, fetch and filter sessions,
fetch sequence info, load the heuristic, classify, build the intention map,
and issue one apply call per destination key.  Any exception from a
collaborator propagates immediately; the trace records the calls issued up
to that point. -/
def convert_to_bids {C K S R : Type} [DecidableEq K]
    (collab : Collab C K S R) (client : C) (project_label : String)
    (heuristic_path : String)
    (subject_labels : Option (List String) := none)
    (session_labels : Option (List String) := none)
    (dry_run : Bool := false) :
    List (Event C K S R) × Except PyError Unit :=
  let query := fmt_label_query project_label
  match collab.find_first client query with
  | Except.error e => ([Event.find_first_call query], Except.error e)
  | Except.ok project_obj =>
    match collab.get_project_sessions client project_obj.id with
    | Except.error e =>
      ([Event.find_first_call query, Event.sessions_query project_obj.id],
       Except.error e)
    | Except.ok sessions0 =>
      let sessions := apply_filters subject_labels session_labels sessions0
      match collab.get_seq_info client project_label sessions with
      | Except.error e =>
        ([Event.find_first_call query, Event.sessions_query project_obj.id,
          Event.seq_info_query project_label sessions], Except.error e)
      | Except.ok seq_infos =>
        match collab.load_heuristic heuristic_path with
        | Except.error e =>
          ([Event.find_first_call query, Event.sessions_query project_obj.id,
            Event.seq_info_query project_label sessions,
            Event.load_heuristic_call heuristic_path], Except.error e)
        | Except.ok heuristic =>
          let to_rename := heuristic.infotodict seq_infos
          let r := run_applies collab.apply_heuristic client dry_run
            heuristic.IntendedFor to_rename
          ([Event.find_first_call query, Event.sessions_query project_obj.id,
            Event.seq_info_query project_label sessions,
            Event.load_heuristic_call heuristic_path,
            Event.infotodict_call seq_infos] ++ r.1, r.2)

/-- Modelled from the spec: the remote client's project finder
(`find_first(query) -> Project`, spec sections 4.1 step 1 and 6) is part of
the third-party client library, not of this repository's sources; per the
spec it resolves the project by exact label match and fails with
`NotFoundError` when no project matches.  The client's project list is a
parameter; the query string is the one `convert_to_bids` builds. -/
def find_first_spec (projects : List Project) (query : String) :
    Except PyError Project :=
  match projects.find? (fun p => decide (fmt_label_query p.label = query)) with
  | some p => Except.ok p
  | none => Except.error PyError.notFoundError

/-- Parsed CLI arguments (`argparse`: `--project` and the optional filters
take one or more values, the flags default to false). -/
structure Args where
  project : List String
  heuristic : String
  subject : Option (List String)
  session : Option (List String)
  verbose : Bool
  dry_run : Bool

/-- The project label built by main: the values of the project argument
joined with single spaces into one string. -/
def main_project_label (args : Args) : String :=
  String.intercalate " " args.project

/-- The call main makes after parsing: convert_to_bids on the joined
project label, the heuristic path, the optional subject and session label
filters, and the dry-run flag. -/
def main_run {C K S R : Type} [DecidableEq K] (collab : Collab C K S R)
    (client : C) (args : Args) :
    List (Event C K S R) × Except PyError Unit :=
  convert_to_bids collab client (main_project_label args) args.heuristic
    args.subject args.session args.dry_run

/-! ### Observations on traces -/

/-- The apply-layer calls recorded in a trace, in order. -/
def apply_events {C K S R : Type} (tr : List (Event C K S R)) :
    List (ApplyCall C K S R) :=
  tr.filterMap (fun e =>
    match e with
    | Event.apply_call c => some c
    | _ => none)

/-- Recognizes classification-entry-point (`infotodict`) call events. -/
def is_infotodict_call {C K S R : Type} : Event C K S R → Bool
  | Event.infotodict_call _ => true
  | _ => false

/-- Replaces the dry-run flag recorded in an apply-call event; other events
are untouched. -/
def set_dry {C K S R : Type} (d : Bool) : Event C K S R → Event C K S R
  | Event.apply_call c => Event.apply_call { c with dry_run := d }
  | e => e

/-! ### Helper lemmas: the session filters as `List.filter` -/

/-- The effective boolean predicate of the subject filter (identity when the
filter argument is falsy). -/
def subj_pred (F : Option (List String)) (s : Session) : Bool :=
  if truthy_labels F then decide (s.subject_label ∈ F.getD []) else true

/-- The effective boolean predicate of the session-label filter. -/
def sess_pred (F : Option (List String)) (s : Session) : Bool :=
  if truthy_labels F then decide (s.label ∈ F.getD []) else true

theorem filter_subjects_eq (F : Option (List String)) (S : List Session) :
    filter_subjects F S = S.filter (subj_pred F) := by
  unfold filter_subjects subj_pred
  by_cases h : truthy_labels F <;> simp [h]

theorem filter_sessions_eq (F : Option (List String)) (S : List Session) :
    filter_sessions F S = S.filter (sess_pred F) := by
  unfold filter_sessions sess_pred
  by_cases h : truthy_labels F <;> simp [h]

theorem filter_inter (S : List Session) (p q : Session → Bool) :
    (S.filter p).filter q = (S.filter p) ∩ (S.filter q) := by
  rw [List.inter_def]
  refine List.filter_congr ?_
  intro x hx
  have hxS : x ∈ S := List.mem_of_mem_filter hx
  by_cases hq : q x
  · simp [List.mem_filter, hxS, hq]
  · simp [List.mem_filter, hq]

/-! ### Claims about the session filters and the CLI label join -/

/-- C3: for every session list `S` and subject-label filter `F`, when `F` is
supplied and non-empty the filtered output contains exactly those sessions of
`S` whose subject label is a member of `F` (exact string membership), and
when `F` is absent or empty the output is `S` unchanged. -/
theorem subject_filter_exact_membership (S : List Session)
    (F : Option (List String)) :
    (∀ l, F = some l → l ≠ [] →
      (∀ s, s ∈ filter_subjects F S ↔ s ∈ S ∧ s.subject_label ∈ l) ∧
        filter_subjects F S =
          S.filter (fun s => decide (s.subject_label ∈ l))) ∧
    ((F = none ∨ F = some []) → filter_subjects F S = S) := by
  constructor
  · rintro l rfl hl
    have ht : truthy_labels (some l) = true := by
      cases l with
      | nil => exact absurd rfl hl
      | cons a as => rfl
    constructor
    · intro s
      simp [filter_subjects, ht, List.mem_filter]
    · simp [filter_subjects, ht]
  · rintro (rfl | rfl) <;> simp [filter_subjects, truthy_labels]

/-- Witness for `subject_filter_exact_membership` at a concrete session list
and a concrete non-empty subject filter. -/
theorem subject_filter_exact_membership_witness :
    filter_subjects (some ["sub-01"])
        [⟨"sub-01", "ses-1", "a"⟩, ⟨"sub-02", "ses-1", "b"⟩] =
      List.filter (fun s => decide (s.subject_label ∈ ["sub-01"]))
        [⟨"sub-01", "ses-1", "a"⟩, ⟨"sub-02", "ses-1", "b"⟩] :=
  ((subject_filter_exact_membership
      [⟨"sub-01", "ses-1", "a"⟩, ⟨"sub-02", "ses-1", "b"⟩]
      (some ["sub-01"])).1 ["sub-01"] rfl (List.cons_ne_nil _ _)).2

/-- C4: for every session list and every pair of subject-label and
session-label filters, applying both filters (as `convert_to_bids` does)
equals the intersection of the results of applying each filter alone, and
applying the two filters in either order yields the same result. -/
theorem filters_compose_by_intersection (S : List Session)
    (F1 F2 : Option (List String)) :
    apply_filters F1 F2 S = (filter_subjects F1 S) ∩ (filter_sessions F2 S) ∧
      filter_sessions F2 (filter_subjects F1 S) =
        filter_subjects F1 (filter_sessions F2 S) := by
  constructor
  · unfold apply_filters
    simp only [filter_subjects_eq, filter_sessions_eq]
    exact filter_inter S _ _
  · simp only [filter_subjects_eq, filter_sessions_eq, List.filter_filter]
    exact List.filter_congr (fun x _ => Bool.and_comm _ _)

/-- C10: both label filters only ever drop sessions: the filtered list is a
subsequence of the fetched session list (relative order and multiplicity
preserved, nothing added or duplicated), for the composed filter and for each
filter alone. -/
theorem filters_preserve_order_and_multiplicity (S : List Session)
    (F1 F2 : Option (List String)) :
    List.Sublist (apply_filters F1 F2 S) S ∧
      List.Sublist (filter_subjects F1 S) S ∧
      List.Sublist (filter_sessions F2 S) S := by
  refine ⟨?_, ?_, ?_⟩
  · unfold apply_filters
    rw [filter_subjects_eq, filter_sessions_eq]
    exact (List.filter_sublist _).trans (List.filter_sublist _)
  · rw [filter_subjects_eq]
    exact List.filter_sublist _
  · rw [filter_sessions_eq]
    exact List.filter_sublist _

/-- Every run's trace starts with the project query built from the supplied
project label, whatever the collaborators do afterwards. -/
theorem convert_to_bids_head_eq {C K S R : Type} [DecidableEq K]
    (collab : Collab C K S R) (client : C) (pl hp : String)
    (subj sess : Option (List String)) (dry : Bool) :
    (convert_to_bids collab client pl hp subj sess dry).1.head? =
      some (Event.find_first_call (fmt_label_query pl)) := by
  simp only [convert_to_bids]
  rcases collab.find_first client (fmt_label_query pl) with e | proj
  · rfl
  · dsimp only
    rcases collab.get_project_sessions client proj.id with e | ss
    · rfl
    · dsimp only
      rcases collab.get_seq_info client pl (apply_filters subj sess ss)
        with e | si
      · rfl
      · dsimp only
        rcases collab.load_heuristic hp with e | h
        · rfl
        · simp

/-- C8: `main` joins the one-or-more `--project` values with single spaces
into one label string, and that joined string is the label used for the
project query (it determines the query of the run's first event). -/
theorem main_joins_project_labels {C K S R : Type} [DecidableEq K]
    (collab : Collab C K S R) (client : C) (args : Args) :
    main_project_label args = String.intercalate " " args.project ∧
      (main_run collab client args).1.head? =
        some (Event.find_first_call
          (fmt_label_query (String.intercalate " " args.project))) := by
  refine ⟨rfl, ?_⟩
  unfold main_run main_project_label
  exact convert_to_bids_head_eq collab client _ _ _ _ _

/-! ### Helper lemmas about the apply loop and the trace -/

theorem run_applies_nil {C K S R : Type} [DecidableEq K]
    (ap : C → K → List S → Bool → List R → Except PyError Unit)
    (client : C) (dry : Bool) (IF : Option (List (K × List R))) :
    run_applies ap client dry IF [] = ([], Except.ok ()) := rfl

theorem run_applies_cons {C K S R : Type} [DecidableEq K]
    (ap : C → K → List S → Bool → List R → Except PyError Unit)
    (client : C) (dry : Bool) (IF : Option (List (K × List R)))
    (k : K) (v : List S) (rest : List (K × List S)) :
    run_applies ap client dry IF ((k, v) :: rest) =
      match ap client k v dry (intention_map_lookup IF k) with
      | Except.error e =>
        ([Event.apply_call (mk_apply_call client dry IF (k, v))],
         Except.error e)
      | Except.ok _ =>
        (Event.apply_call (mk_apply_call client dry IF (k, v)) ::
          (run_applies ap client dry IF rest).1,
         (run_applies ap client dry IF rest).2) := rfl

theorem run_applies_mem {C K S R : Type} [DecidableEq K]
    (ap : C → K → List S → Bool → List R → Except PyError Unit)
    (client : C) (dry : Bool) (IF : Option (List (K × List R)))
    (L : List (K × List S)) (c : ApplyCall C K S R)
    (hc : Event.apply_call c ∈ (run_applies ap client dry IF L).1) :
    c.client = client ∧ c.dry_run = dry ∧
      c.intentions = intention_map_lookup IF c.key ∧ (c.key, c.val) ∈ L := by
  induction L with
  | nil => simp [run_applies_nil] at hc
  | cons kv rest ih =>
    obtain ⟨k, v⟩ := kv
    rw [run_applies_cons] at hc
    cases hap : ap client k v dry (intention_map_lookup IF k) with
    | error e =>
      rw [hap] at hc
      simp only [List.mem_singleton, Event.apply_call.injEq] at hc
      subst hc
      simp [mk_apply_call]
    | ok u =>
      rw [hap] at hc
      simp only [List.mem_cons, Event.apply_call.injEq] at hc
      rcases hc with rfl | hc
      · simp [mk_apply_call]
      · have hfields := ih hc
        exact ⟨hfields.1, hfields.2.1, hfields.2.2.1,
          List.mem_cons_of_mem _ hfields.2.2.2⟩

theorem run_applies_all_ok {C K S R : Type} [DecidableEq K]
    (ap : C → K → List S → Bool → List R → Except PyError Unit)
    (client : C) (dry : Bool) (IF : Option (List (K × List R)))
    (hap : ∀ k v i, ap client k v dry i = Except.ok ())
    (L : List (K × List S)) :
    run_applies ap client dry IF L =
      (L.map (fun p => Event.apply_call (mk_apply_call client dry IF p)),
       Except.ok ()) := by
  induction L with
  | nil => rfl
  | cons kv rest ih =>
    obtain ⟨k, v⟩ := kv
    rw [run_applies_cons, hap]
    simp [ih]

theorem run_applies_error_at {C K S R : Type} [DecidableEq K]
    (ap : C → K → List S → Bool → List R → Except PyError Unit)
    (client : C) (dry : Bool) (IF : Option (List (K × List R)))
    (L₁ : List (K × List S)) (k : K) (v : List S) (L₂ : List (K × List S))
    (e : PyError)
    (hpre : ∀ p ∈ L₁,
      ap client p.1 p.2 dry (intention_map_lookup IF p.1) = Except.ok ())
    (herr : ap client k v dry (intention_map_lookup IF k) = Except.error e) :
    run_applies ap client dry IF (L₁ ++ (k, v) :: L₂) =
      (L₁.map (fun p => Event.apply_call (mk_apply_call client dry IF p)) ++
        [Event.apply_call (mk_apply_call client dry IF (k, v))],
       Except.error e) := by
  induction L₁ with
  | nil =>
    simp only [List.nil_append]
    rw [run_applies_cons, herr]
    simp
  | cons p L₁ ih =>
    obtain ⟨k', v'⟩ := p
    have h1 : ap client k' v' dry (intention_map_lookup IF k') =
        Except.ok () := hpre (k', v') (List.mem_cons_self _ _)
    rw [List.cons_append, run_applies_cons, h1]
    dsimp only
    rw [ih (fun q hq => hpre q (List.mem_cons_of_mem _ hq))]
    simp

theorem run_applies_dry_indep {C K S R : Type} [DecidableEq K]
    (ap : C → K → List S → Bool → List R → Except PyError Unit)
    (client : C) (IF : Option (List (K × List R))) (d₁ d₂ : Bool)
    (hind : ∀ k v i, ap client k v d₂ i = ap client k v d₁ i)
    (L : List (K × List S)) :
    run_applies ap client d₂ IF L =
      ((run_applies ap client d₁ IF L).1.map (set_dry d₂),
       (run_applies ap client d₁ IF L).2) := by
  induction L with
  | nil => rfl
  | cons kv rest ih =>
    obtain ⟨k, v⟩ := kv
    rw [run_applies_cons, run_applies_cons, hind]
    cases hap : ap client k v d₁ (intention_map_lookup IF k) with
    | error e => simp [set_dry, mk_apply_call]
    | ok u => simp [set_dry, mk_apply_call, ih]

theorem dict_lookup_middle {K A : Type} [DecidableEq K] (m₁ m₂ : List (K × A))
    (k₀ : K) (r : A) (k : K) (hne : k ≠ k₀) :
    dict_lookup (m₁ ++ (k₀, r) :: m₂) k = dict_lookup (m₁ ++ m₂) k := by
  induction m₁ with
  | nil =>
    simp only [List.nil_append]
    unfold dict_lookup
    rw [List.find?_cons_of_neg _ (by simp [Ne.symm hne])]
  | cons a m₁ ih =>
    by_cases ha : a.1 = k
    · unfold dict_lookup
      rw [List.cons_append, List.cons_append,
        List.find?_cons_of_pos _ (by simp [ha]),
        List.find?_cons_of_pos _ (by simp [ha])]
    · unfold dict_lookup at ih ⊢
      rw [List.cons_append, List.cons_append,
        List.find?_cons_of_neg _ (by simp [ha]),
        List.find?_cons_of_neg _ (by simp [ha])]
      exact ih

theorem intention_lookup_drop {K A : Type} [DecidableEq K]
    (m₁ m₂ : List (K × List A)) (k₀ : K) (r : List A) (k : K) (hne : k ≠ k₀) :
    intention_map_lookup (some (m₁ ++ (k₀, r) :: m₂)) k =
      intention_map_lookup (some (m₁ ++ m₂)) k := by
  simp [intention_map_lookup, dict_lookup_middle m₁ m₂ k₀ r k hne]

theorem run_applies_intendedfor_drop {C K S R : Type} [DecidableEq K]
    (ap : C → K → List S → Bool → List R → Except PyError Unit)
    (client : C) (dry : Bool) (m₁ m₂ : List (K × List R)) (k₀ : K)
    (r : List R) (L : List (K × List S)) (hk : k₀ ∉ L.map Prod.fst) :
    run_applies ap client dry (some (m₁ ++ (k₀, r) :: m₂)) L =
      run_applies ap client dry (some (m₁ ++ m₂)) L := by
  induction L with
  | nil => rfl
  | cons kv rest ih =>
    obtain ⟨k, v⟩ := kv
    have hne : k ≠ k₀ := by
      intro hkk
      exact hk (by simp [hkk])
    have hk' : k₀ ∉ rest.map Prod.fst := fun hmem => hk (by simp [hmem])
    have hmk : mk_apply_call (S := S) client dry
        (some (m₁ ++ (k₀, r) :: m₂)) (k, v) =
        mk_apply_call client dry (some (m₁ ++ m₂)) (k, v) := by
      simp [mk_apply_call, intention_lookup_drop m₁ m₂ k₀ r k hne]
    rw [run_applies_cons, run_applies_cons,
      intention_lookup_drop m₁ m₂ k₀ r k hne, hmk, ih hk']

theorem fmt_label_query_injective {a b : String}
    (h : fmt_label_query a = fmt_label_query b) : a = b := by
  unfold fmt_label_query at h
  have h2 := congrArg String.data h
  simp only [String.data_append] at h2
  exact String.ext (List.append_cancel_left (List.append_cancel_right h2))

theorem apply_events_append {C K S R : Type}
    (l₁ l₂ : List (Event C K S R)) :
    apply_events (l₁ ++ l₂) = apply_events l₁ ++ apply_events l₂ := by
  simp [apply_events, List.filterMap_append]

theorem apply_events_map {C K S R α : Type} (f : α → ApplyCall C K S R)
    (L : List α) :
    apply_events (L.map (fun a => Event.apply_call (f a))) = L.map f := by
  induction L with
  | nil => rfl
  | cons a L ih =>
    simp only [List.map_cons]
    rw [show apply_events (Event.apply_call (f a) ::
        L.map (fun a => Event.apply_call (f a))) =
      f a :: apply_events (L.map (fun a => Event.apply_call (f a))) from rfl]
    rw [ih]

/-- The whole trace and outcome of a run in which every collaborator query
succeeds: the five reads in order, then the apply loop. -/
theorem convert_to_bids_ok {C K S R : Type} [DecidableEq K]
    (collab : Collab C K S R) (client : C) (pl hp : String)
    (subj sess : Option (List String)) (dry : Bool)
    (proj : Project) (ss : List Session) (si : List S) (h : Heuristic K S R)
    (hf : collab.find_first client (fmt_label_query pl) = Except.ok proj)
    (hs : collab.get_project_sessions client proj.id = Except.ok ss)
    (hq : collab.get_seq_info client pl (apply_filters subj sess ss) =
      Except.ok si)
    (hl : collab.load_heuristic hp = Except.ok h) :
    convert_to_bids collab client pl hp subj sess dry =
      ([Event.find_first_call (fmt_label_query pl),
        Event.sessions_query proj.id,
        Event.seq_info_query pl (apply_filters subj sess ss),
        Event.load_heuristic_call hp,
        Event.infotodict_call si] ++
        (run_applies collab.apply_heuristic client dry h.IntendedFor
          (h.infotodict si)).1,
       (run_applies collab.apply_heuristic client dry h.IntendedFor
          (h.infotodict si)).2) := by
  simp only [convert_to_bids]
  rw [hf]
  dsimp only
  rw [hs]
  dsimp only
  rw [hq]
  dsimp only
  rw [hl]

/-- Every apply-call event of any run comes from the apply loop over the
mapping returned by the loaded heuristic. -/
theorem apply_call_mem_inv {C K S R : Type} [DecidableEq K]
    (collab : Collab C K S R) (client : C) (pl hp : String)
    (subj sess : Option (List String)) (dry : Bool)
    (c : ApplyCall C K S R)
    (hc : Event.apply_call c ∈
      (convert_to_bids collab client pl hp subj sess dry).1) :
    ∃ (h : Heuristic K S R) (si : List S),
      collab.load_heuristic hp = Except.ok h ∧
      Event.apply_call c ∈ (run_applies collab.apply_heuristic client dry
        h.IntendedFor (h.infotodict si)).1 := by
  simp only [convert_to_bids] at hc
  cases hf : collab.find_first client (fmt_label_query pl) with
  | error e => rw [hf] at hc; simp at hc
  | ok proj =>
    rw [hf] at hc
    dsimp only at hc
    cases hs : collab.get_project_sessions client proj.id with
    | error e => rw [hs] at hc; simp at hc
    | ok ss =>
      rw [hs] at hc
      dsimp only at hc
      cases hq : collab.get_seq_info client pl (apply_filters subj sess ss) with
      | error e => rw [hq] at hc; simp at hc
      | ok si =>
        rw [hq] at hc
        dsimp only at hc
        cases hl : collab.load_heuristic hp with
        | error e => rw [hl] at hc; simp at hc
        | ok h =>
          rw [hl] at hc
          dsimp only at hc
          refine ⟨h, si, rfl, ?_⟩
          simp at hc
          exact hc

/-! ### Claims about the orchestration run -/

/-- C1: every apply call of a run receives, as its intention list, the
loaded heuristic's `IntendedFor` entry for its destination key when the
heuristic exposes an `IntendedFor` mapping containing that key, and the
empty list otherwise — also when the heuristic exposes no `IntendedFor`
attribute at all; the lookup is total, so no apply call receives an absent
key. -/
theorem intended_for_defaulting {C K S R : Type} [DecidableEq K]
    (collab : Collab C K S R) (client : C) (pl hp : String)
    (subj sess : Option (List String)) (dry : Bool) (h : Heuristic K S R)
    (hl : collab.load_heuristic hp = Except.ok h)
    (c : ApplyCall C K S R)
    (hc : Event.apply_call c ∈
      (convert_to_bids collab client pl hp subj sess dry).1) :
    c.intentions = intention_map_lookup h.IntendedFor c.key ∧
      (h.IntendedFor = none → c.intentions = []) ∧
      (∀ m, h.IntendedFor = some m → dict_lookup m c.key = none →
        c.intentions = []) ∧
      (∀ m r, h.IntendedFor = some m → dict_lookup m c.key = some r →
        c.intentions = r) := by
  obtain ⟨h', si, hl', hmem⟩ :=
    apply_call_mem_inv collab client pl hp subj sess dry c hc
  rw [hl] at hl'
  injection hl' with hh
  subst hh
  have hfields := run_applies_mem _ _ _ _ _ _ hmem
  refine ⟨hfields.2.2.1, ?_, ?_, ?_⟩
  · intro hnone
    rw [hfields.2.2.1, hnone]
    rfl
  · intro m hm hnone
    rw [hfields.2.2.1, hm]
    simp [intention_map_lookup, hnone]
  · intro m r hm hsome
    rw [hfields.2.2.1, hm]
    simp [intention_map_lookup, hsome]

/-- C2: when no project in the remote client's project list matches the
supplied project label, the run surfaces `NotFoundError`: the outcome is
that error, the trace is only the failed project query, and in particular
no session query and no sequence-info query was attempted. -/
theorem project_not_found_before_queries {C K S R : Type} [DecidableEq K]
    (collab : Collab C K S R) (projects : List Project)
    (hff : collab.find_first = fun _ q => find_first_spec projects q)
    (client : C) (pl hp : String) (subj sess : Option (List String))
    (dry : Bool)
    (hnone : ∀ p ∈ projects, p.label ≠ pl) :
    convert_to_bids collab client pl hp subj sess dry =
      ([Event.find_first_call (fmt_label_query pl)],
       Except.error PyError.notFoundError) ∧
      (∀ pid, Event.sessions_query pid ∉
        (convert_to_bids collab client pl hp subj sess dry).1) ∧
      (∀ l ss, Event.seq_info_query (C := C) (K := K) (S := S) (R := R) l ss ∉
        (convert_to_bids collab client pl hp subj sess dry).1) := by
  have hf : collab.find_first client (fmt_label_query pl) =
      Except.error PyError.notFoundError := by
    rw [hff]
    dsimp only
    unfold find_first_spec
    have hnone' : projects.find?
        (fun p => decide (fmt_label_query p.label = fmt_label_query pl)) =
          none := by
      rw [List.find?_eq_none]
      intro p hp' hdec
      simp only [decide_eq_true_eq] at hdec
      exact hnone p hp' (fmt_label_query_injective hdec)
    rw [hnone']
  have heq : convert_to_bids collab client pl hp subj sess dry =
      ([Event.find_first_call (fmt_label_query pl)],
       Except.error PyError.notFoundError) := by
    simp only [convert_to_bids]
    rw [hf]
  refine ⟨heq, ?_, ?_⟩
  · intro pid
    rw [heq]
    simp
  · intro l ss
    rw [heq]
    simp

/-- C5: in a run in which every collaborator call succeeds, the heuristic's
classification entry point is called exactly once, and the apply layer is
called once per destination key of the returned mapping — with the client
handle, the key, its matched sequences, the dry-run flag and its intention
list — in the insertion order of the mapping, with no reordering and no
deduplication. -/
theorem single_classification_and_ordered_applies {C K S R : Type}
    [DecidableEq K]
    (collab : Collab C K S R) (client : C) (pl hp : String)
    (subj sess : Option (List String)) (dry : Bool)
    (proj : Project) (ss : List Session) (si : List S) (h : Heuristic K S R)
    (hf : collab.find_first client (fmt_label_query pl) = Except.ok proj)
    (hs : collab.get_project_sessions client proj.id = Except.ok ss)
    (hq : collab.get_seq_info client pl (apply_filters subj sess ss) =
      Except.ok si)
    (hl : collab.load_heuristic hp = Except.ok h)
    (hap : ∀ k v i, collab.apply_heuristic client k v dry i = Except.ok ()) :
    ((convert_to_bids collab client pl hp subj sess dry).1.countP
        is_infotodict_call = 1) ∧
      apply_events (convert_to_bids collab client pl hp subj sess dry).1 =
        (h.infotodict si).map (mk_apply_call client dry h.IntendedFor) := by
  have heq := convert_to_bids_ok collab client pl hp subj sess dry proj ss si
    h hf hs hq hl
  rw [heq, run_applies_all_ok collab.apply_heuristic client dry h.IntendedFor
    hap (h.infotodict si)]
  constructor
  · simp [is_infotodict_call, List.countP_append, List.countP_map,
      List.countP_cons, Function.comp]
  · rw [apply_events_append, apply_events_map]
    rw [show apply_events (C := C) (K := K) (S := S) (R := R)
        [Event.find_first_call (fmt_label_query pl),
         Event.sessions_query proj.id,
         Event.seq_info_query pl (apply_filters subj sess ss),
         Event.load_heuristic_call hp,
         Event.infotodict_call si] = [] from rfl]
    rw [List.nil_append]

/-- C6: the dry-run flag supplied to the orchestrator is recorded unchanged
in every apply call it issues, and — provided the apply layer's outcome does
not depend on the flag — two runs that differ only in the flag have the same
trace (same keys, matched sequences and intention lists in the same order)
up to the recorded flag value, and the same outcome: the orchestrator does
not branch on the flag. -/
theorem dry_run_passthrough {C K S R : Type} [DecidableEq K]
    (collab : Collab C K S R) (client : C) (pl hp : String)
    (subj sess : Option (List String)) (d₁ d₂ : Bool)
    (hind : ∀ k v i, collab.apply_heuristic client k v d₂ i =
      collab.apply_heuristic client k v d₁ i) :
    (∀ c, Event.apply_call c ∈
        (convert_to_bids collab client pl hp subj sess d₁).1 →
      c.dry_run = d₁) ∧
      convert_to_bids collab client pl hp subj sess d₂ =
        ((convert_to_bids collab client pl hp subj sess d₁).1.map
          (set_dry d₂),
         (convert_to_bids collab client pl hp subj sess d₁).2) := by
  constructor
  · intro c hc
    obtain ⟨h, si, hl, hmem⟩ :=
      apply_call_mem_inv collab client pl hp subj sess d₁ c hc
    exact (run_applies_mem _ _ _ _ _ _ hmem).2.1
  · simp only [convert_to_bids]
    cases hf : collab.find_first client (fmt_label_query pl) with
    | error e => simp [set_dry]
    | ok proj =>
      dsimp only
      cases hs : collab.get_project_sessions client proj.id with
      | error e => simp [set_dry]
      | ok ss =>
        dsimp only
        cases hq : collab.get_seq_info client pl (apply_filters subj sess ss)
          with
        | error e => simp [set_dry]
        | ok si =>
          dsimp only
          cases hl : collab.load_heuristic hp with
          | error e => simp [set_dry]
          | ok h =>
            dsimp only
            rw [run_applies_dry_indep collab.apply_heuristic client
              h.IntendedFor d₁ d₂ hind (h.infotodict si)]
            simp [set_dry]

/-- C7: if, in a run that reaches the apply loop, the apply call for the
destination key at position N raises, that exception is the run's outcome
(propagated uncaught), the apply calls for the first N−1 keys have already
been issued, the failing call itself was issued exactly once, and no further
apply call is made — no retry, no rollback, no compensation. -/
theorem apply_failure_propagates {C K S R : Type} [DecidableEq K]
    (collab : Collab C K S R) (client : C) (pl hp : String)
    (subj sess : Option (List String)) (dry : Bool)
    (proj : Project) (ss : List Session) (si : List S) (h : Heuristic K S R)
    (L₁ : List (K × List S)) (k : K) (v : List S) (L₂ : List (K × List S))
    (e : PyError)
    (hf : collab.find_first client (fmt_label_query pl) = Except.ok proj)
    (hs : collab.get_project_sessions client proj.id = Except.ok ss)
    (hq : collab.get_seq_info client pl (apply_filters subj sess ss) =
      Except.ok si)
    (hl : collab.load_heuristic hp = Except.ok h)
    (hinfo : h.infotodict si = L₁ ++ (k, v) :: L₂)
    (hpre : ∀ p ∈ L₁, collab.apply_heuristic client p.1 p.2 dry
      (intention_map_lookup h.IntendedFor p.1) = Except.ok ())
    (herr : collab.apply_heuristic client k v dry
      (intention_map_lookup h.IntendedFor k) = Except.error e) :
    (convert_to_bids collab client pl hp subj sess dry).2 = Except.error e ∧
      apply_events (convert_to_bids collab client pl hp subj sess dry).1 =
        L₁.map (mk_apply_call client dry h.IntendedFor) ++
          [mk_apply_call client dry h.IntendedFor (k, v)] := by
  have heq := convert_to_bids_ok collab client pl hp subj sess dry proj ss si
    h hf hs hq hl
  rw [heq, hinfo, run_applies_error_at collab.apply_heuristic client dry
    h.IntendedFor L₁ k v L₂ e hpre herr]
  constructor
  · rfl
  · rw [apply_events_append,
      show apply_events (C := C) (K := K) (S := S) (R := R)
        [Event.find_first_call (fmt_label_query pl),
         Event.sessions_query proj.id,
         Event.seq_info_query pl (apply_filters subj sess ss),
         Event.load_heuristic_call hp,
         Event.infotodict_call si] = [] from rfl,
      List.nil_append, apply_events_append, apply_events_map,
      show apply_events
        [Event.apply_call (mk_apply_call client dry h.IntendedFor (k, v))] =
        [mk_apply_call client dry h.IntendedFor (k, v)] from rfl]

/-- C9: an `IntendedFor` entry whose key does not occur among the
destination keys of the classification output is ignored: deleting it from
the heuristic changes neither the trace (no apply call of its own, no
argument of any issued apply call) nor the outcome of the run. -/
theorem unmatched_intention_keys_ignored {C K S R : Type} [DecidableEq K]
    (collab : Collab C K S R) (client : C) (pl hp : String)
    (subj sess : Option (List String)) (dry : Bool)
    (proj : Project) (ss : List Session) (si : List S)
    (h₁ h₂ : Heuristic K S R) (m₁ m₂ : List (K × List R)) (k₀ : K)
    (r : List R)
    (hf : collab.find_first client (fmt_label_query pl) = Except.ok proj)
    (hs : collab.get_project_sessions client proj.id = Except.ok ss)
    (hq : collab.get_seq_info client pl (apply_filters subj sess ss) =
      Except.ok si)
    (hl : collab.load_heuristic hp = Except.ok h₁)
    (hinfo : h₂.infotodict = h₁.infotodict)
    (hIF₁ : h₁.IntendedFor = some (m₁ ++ (k₀, r) :: m₂))
    (hIF₂ : h₂.IntendedFor = some (m₁ ++ m₂))
    (hk : k₀ ∉ (h₁.infotodict si).map Prod.fst) :
    convert_to_bids collab client pl hp subj sess dry =
      convert_to_bids { collab with load_heuristic := fun _ => Except.ok h₂ }
        client pl hp subj sess dry := by
  have heq1 := convert_to_bids_ok collab client pl hp subj sess dry proj ss
    si h₁ hf hs hq hl
  have heq2 := convert_to_bids_ok
    { collab with load_heuristic := fun _ => Except.ok h₂ } client pl hp subj
    sess dry proj ss si h₂ hf hs hq rfl
  rw [heq1, heq2]
  dsimp only
  rw [hinfo, hIF₁, hIF₂,
    run_applies_intendedfor_drop collab.apply_heuristic client dry m₁ m₂ k₀ r
      (h₁.infotodict si) hk]

/-! ### Concrete instantiations -/

/-- A concrete heuristic: two destination keys, an `IntendedFor` entry for
the first only. -/
def heuristic0 : Heuristic Nat Nat Nat :=
  { infotodict := fun _ => [(1, [10]), (2, [20, 30])],
    IntendedFor := some [(1, [7])] }

/-- A concrete collaborator assignment in which every call succeeds. -/
def collab0 : Collab Unit Nat Nat Nat :=
  { find_first := fun _ _ => Except.ok { label := "p", id := "pid" },
    get_project_sessions := fun _ _ => Except.ok [],
    get_seq_info := fun _ _ _ => Except.ok [],
    load_heuristic := fun _ => Except.ok heuristic0,
    apply_heuristic := fun _ _ _ _ _ => Except.ok () }

/-- A one-project remote side for the not-found scenario. -/
def projects0 : List Project := [{ label := "StudyA", id := "idA" }]

/-- Variant of `collab0` with the spec-modelled project finder over
`projects0`. -/
def collab1 : Collab Unit Nat Nat Nat :=
  { collab0 with find_first := fun _ q => find_first_spec projects0 q }

/-- Variant of `collab0` with an apply layer that raises on destination
key 2. -/
def collab2 : Collab Unit Nat Nat Nat :=
  { collab0 with
    apply_heuristic := fun _ k _ _ _ =>
      if k = 2 then Except.error (PyError.exception 5) else Except.ok () }

/-- A heuristic whose `IntendedFor` key 5 matches no destination key. -/
def heuristic1 : Heuristic Nat Nat Nat :=
  { infotodict := fun _ => [(1, [10])], IntendedFor := some [(5, [9])] }

/-- Variant of `heuristic1` with the unmatched `IntendedFor` entry
removed. -/
def heuristic2 : Heuristic Nat Nat Nat :=
  { infotodict := fun _ => [(1, [10])], IntendedFor := some [] }

/-- Variant of `collab0` loading `heuristic1`. -/
def collab3 : Collab Unit Nat Nat Nat :=
  { collab0 with load_heuristic := fun _ => Except.ok heuristic1 }

/-- Witness for `intended_for_defaulting`: the apply call for key 2, whose
key is absent from `heuristic0`'s `IntendedFor`, received the empty list. -/
theorem intended_for_defaulting_witness :
    (⟨(), 2, [20, 30], false, []⟩ : ApplyCall Unit Nat Nat Nat).intentions =
      intention_map_lookup heuristic0.IntendedFor
        (⟨(), 2, [20, 30], false, []⟩ : ApplyCall Unit Nat Nat Nat).key :=
  (intended_for_defaulting collab0 () "p" "h" none none false heuristic0 rfl
    ⟨(), 2, [20, 30], false, []⟩ (by decide)).1

/-- Witness for `project_not_found_before_queries` at a concrete label
matching no project. -/
theorem project_not_found_before_queries_witness :
    convert_to_bids collab1 () "StudyB" "h" none none false =
      ([Event.find_first_call (fmt_label_query "StudyB")],
       Except.error PyError.notFoundError) :=
  (project_not_found_before_queries collab1 projects0 rfl () "StudyB" "h"
    none none false (by decide)).1

/-- Witness for `single_classification_and_ordered_applies` on a fully
successful concrete run. -/
theorem single_classification_and_ordered_applies_witness :
    ((convert_to_bids collab0 () "p" "h" none none false).1.countP
        is_infotodict_call = 1) ∧
      apply_events (convert_to_bids collab0 () "p" "h" none none false).1 =
        (heuristic0.infotodict []).map
          (mk_apply_call () false heuristic0.IntendedFor) :=
  single_classification_and_ordered_applies collab0 () "p" "h" none none
    false { label := "p", id := "pid" } [] [] heuristic0 rfl rfl rfl rfl
    (fun _ _ _ => rfl)

/-- Witness for `dry_run_passthrough`: flipping only the flag between two
concrete runs yields the same trace up to the recorded flag. -/
theorem dry_run_passthrough_witness :
    convert_to_bids collab0 () "p" "h" none none false =
      ((convert_to_bids collab0 () "p" "h" none none true).1.map
        (set_dry false),
       (convert_to_bids collab0 () "p" "h" none none true).2) :=
  (dry_run_passthrough collab0 () "p" "h" none none true false
    (fun _ _ _ => rfl)).2

/-- Witness for `apply_failure_propagates`: with an apply layer raising on
the second key, the concrete run's outcome is that exception. -/
theorem apply_failure_propagates_witness :
    (convert_to_bids collab2 () "p" "h" none none false).2 =
      Except.error (PyError.exception 5) :=
  (apply_failure_propagates collab2 () "p" "h" none none false
    { label := "p", id := "pid" } [] [] heuristic0 [(1, [10])] 2 [20, 30] []
    (PyError.exception 5) rfl rfl rfl rfl rfl
    (by
      intro p hp
      simp only [List.mem_singleton] at hp
      subst hp
      rfl)
    rfl).1

/-- Witness for `unmatched_intention_keys_ignored`: dropping the unmatched
entry `(5, [9])` leaves the concrete run unchanged. -/
theorem unmatched_intention_keys_ignored_witness :
    convert_to_bids collab3 () "p" "h" none none false =
      convert_to_bids
        { collab3 with load_heuristic := fun _ => Except.ok heuristic2 } ()
        "p" "h" none none false :=
  unmatched_intention_keys_ignored collab3 () "p" "h" none none false
    { label := "p", id := "pid" } [] [] heuristic1 heuristic2 [] [] 5 [9]
    rfl rfl rfl rfl rfl rfl rfl (by decide)

end FwHeudiconv
